import Mathlib

/-!
Shallow embedding of the `schema-enforcer` core
(`src/schema_enforcer/schemas/validator.py` and `src/schema_enforcer/cli.py`)
together with proofs about the claims of the spec.

Python data documents (the trees handed to validator plugins and schemas)
are modelled by the `Value` type; Python truthiness, `int()` coercion,
`==` and the `in` operator are modelled explicitly where the source uses
them.  JMESPath expressions are modelled as identifier paths (the subset
rules of the repository exercise): a search either reaches a value or
yields null.
-/

set_option linter.unusedVariables false

namespace SchemaEnforcer

/-- A Python/JSON-like data value: mappings, sequences and scalars
(spec §6: "queries operate over the same tree-shaped data as instances"). -/
inductive Value where
  | vNull : Value
  | vBool : Bool → Value
  | vInt : Int → Value
  | vStr : String → Value
  | vList : List Value → Value
  | vDict : List (String × Value) → Value
deriving Repr

/-- Python truthiness (`if lhs:` in `JmesPathModelValidation.validate`):
`None`, `False`, `0`, `""`, `[]` and `{}` are falsy. -/
def truthy : Value → Bool
  | .vNull => false
  | .vBool b => b
  | .vInt n => n != 0
  | .vStr s => s != ""
  | .vList xs => !xs.isEmpty
  | .vDict kvs => !kvs.isEmpty

/-- Python `int(x)`: identity on ints, 0/1 on bools, decimal parse (sign
allowed, surrounding whitespace stripped) on strings; anything else raises,
modelled as `none`. -/
def pyInt : Value → Option Int
  | .vInt n => some n
  | .vBool b => some (if b then 1 else 0)
  | .vStr s => s.trim.toInt?
  | _ => none

/-- Association-list lookup, first match wins (Python `dict` indexing /
`key in d`). -/
def alook {α : Type} : List (String × α) → String → Option α
  | [], _ => none
  | (k, v) :: rest, i => if k = i then some v else alook rest i

mutual

/-- Python `==` on data values: numeric equality identifies `True`/`1` and
`False`/`0`; lists compare elementwise; dicts compare as key-value sets;
values of unrelated types are unequal (never an error). -/
def pyEq : Value → Value → Bool
  | .vNull, .vNull => true
  | .vBool a, .vBool b => a == b
  | .vBool a, .vInt n => (if a then (1 : Int) else 0) == n
  | .vInt n, .vBool a => n == (if a then (1 : Int) else 0)
  | .vInt a, .vInt b => a == b
  | .vStr a, .vStr b => a == b
  | .vList xs, .vList ys => pyEqList xs ys
  | .vDict xs, .vDict ys => xs.length == ys.length && pyEqDictSub xs ys
  | _, _ => false
termination_by a b => sizeOf a + sizeOf b
decreasing_by all_goals (simp_wf; try omega)

/-- Elementwise Python `==` on lists. -/
def pyEqList : List Value → List Value → Bool
  | [], [] => true
  | x :: xs, y :: ys => pyEq x y && pyEqList xs ys
  | _, _ => false
termination_by xs ys => sizeOf xs + sizeOf ys
decreasing_by all_goals (simp_wf; try omega)

/-- Every entry of the first dict has a `==`-equal entry in the second. -/
def pyEqDictSub : List (String × Value) → List (String × Value) → Bool
  | [], _ => true
  | (k, v) :: xs, ys => pyEqFind k v ys && pyEqDictSub xs ys
termination_by xs ys => sizeOf xs + sizeOf ys
decreasing_by all_goals (simp_wf; try omega)

/-- Some entry of `ys` has key `k` and a value `==`-equal to `v`. -/
def pyEqFind : String → Value → List (String × Value) → Bool
  | _, _, [] => false
  | k, v, (k2, w) :: ys => (k == k2 && pyEq v w) || pyEqFind k v ys
termination_by _ v ys => sizeOf v + sizeOf ys
decreasing_by all_goals (simp_wf; try omega)

end

/-- `needle` is a leading segment of `hay`. -/
def isPre : List Char → List Char → Bool
  | [], _ => true
  | _ :: _, [] => false
  | a :: as, b :: bs => a == b && isPre as bs

/-- `needle` occurs contiguously inside `hay` (Python `str in str`). -/
def hasSub (needle : List Char) : List Char → Bool
  | [] => isPre needle []
  | a :: t => isPre needle (a :: t) || hasSub needle t

/-- Python `v in r`: list membership via `==`, substring test on strings,
key membership on dicts (with string keys, a non-string hashable `v` is
simply absent and an unhashable `v` raises); other right-hand types raise
`TypeError`.  Exceptions are modelled as `none` (as is `str in non-str`). -/
def pyIn (v r : Value) : Option Bool :=
  match r with
  | .vList xs => some (xs.any fun x => pyEq x v)
  | .vStr s =>
    match v with
    | .vStr t => some (hasSub t.data s.data)
    | _ => none
  | .vDict kvs =>
    match v with
    | .vStr k => some (alook kvs k).isSome
    | .vList _ => none
    | .vDict _ => none
    | _ => some false
  | _ => none

/-- JMESPath search along an identifier path; `none` when the path leaves
the document (JMESPath yields `null` there). -/
def searchPath : List String → Value → Option Value
  | [], v => some v
  | k :: rest, .vDict kvs =>
    match alook kvs k with
    | some w => searchPath rest w
    | none => none
  | _ :: _, _ => none

/-- `jmespath.search(expr, data)`: a missing path yields `null`. -/
def jmesSearch (p : List String) (v : Value) : Value :=
  (searchPath p v).getD .vNull

/-- Modelled from the spec: `ValidationResult` lives in
`schema_enforcer/validation.py`, which is not under `src/`.  Per spec §3 it
carries a pass/fail outcome, the owning schema id, a message present only
on fail, and context identifying what was checked (instance type/name and
source location), which start out unset.  The outcome mirrors the
`result="PASS"`/`result="FAIL"` strings of the source. -/
structure ValidationResult where
  result : String
  schema_id : String
  message : Option String := none
  instance_type : Option String := none
  instance_name : Option String := none
  instance_location : Option String := none
deriving Repr, DecidableEq

/-- Modelled from the spec: the pass/fail predicate of a result
(`ValidationResult.passed`, used by `cli.py` as `result.passed()`). -/
def ValidationResult.passed (r : ValidationResult) : Bool :=
  r.result == "PASS"

/-- The state of a `BaseValidation` instance
(`schemas/validator.py` lines 10-34): the `id` class attribute and the
mutable `_results` list. -/
structure BaseValidation where
  id : String
  results : List ValidationResult
deriving Repr, DecidableEq

/-- `BaseValidation.add_validation_error`: append a FAIL result carrying
`self.id` and the message. -/
def add_validation_error (s : BaseValidation) (message : String) : BaseValidation :=
  { s with results := s.results ++ [{ result := "FAIL", schema_id := s.id, message := some message }] }

/-- `BaseValidation.add_validation_pass`: append a PASS result carrying
`self.id`. -/
def add_validation_pass (s : BaseValidation) : BaseValidation :=
  { s with results := s.results ++ [{ result := "PASS", schema_id := s.id }] }

/-- `BaseValidation.get_results`: if `_results` is empty, first append a
PASS result; return the list together with the (possibly updated) state. -/
def get_results (s : BaseValidation) : List ValidationResult × BaseValidation :=
  if s.results.isEmpty then
    let s2 : BaseValidation :=
      { s with results := s.results ++ [{ result := "PASS", schema_id := s.id }] }
    (s2.results, s2)
  else
    (s.results, s)

/-- `BaseValidation.clear_results`: reset `_results` to the empty list. -/
def clear_results (s : BaseValidation) : BaseValidation :=
  { s with results := [] }

/-- The comparison operator of an expression rule: the six keys of the
`operators` dict in `JmesPathModelValidation.validate`. -/
inductive Operator where
  | gt
  | gte
  | eq
  | lt
  | lte
  | contains
deriving Repr, DecidableEq

/-- The `right` class attribute of an expression rule: either a compiled
JMESPath expression (`jmespath.parser.ParsedResult`, recognised by the
`isinstance` check in `validate`) or a literal value. -/
inductive Rhs where
  | expr : List String → Rhs
  | literal : Value → Rhs
deriving Repr

/-- A `JmesPathModelValidation` subclass instance: the inherited
`BaseValidation` state plus the `left`, `right`, `operator` and `error`
class attributes. -/
structure JmesPathModelValidation extends BaseValidation where
  left : List String
  right : Rhs
  operator : Operator
  error : String
deriving Repr

/-- The `operators` dict of `JmesPathModelValidation.validate`: `gt`,
`gte`, `lt`, `lte` coerce both sides with `int()`, `eq` is Python `==`,
`contains` is `v in r`.  `none` models the exception Python raises when
`int()` or `in` is applied to an unsupported operand. -/
def operators : Operator → Value → Value → Option Bool
  | .gt, r, v =>
    match pyInt r, pyInt v with
    | some a, some b => some (decide (a > b))
    | _, _ => none
  | .gte, r, v =>
    match pyInt r, pyInt v with
    | some a, some b => some (decide (a ≥ b))
    | _, _ => none
  | .eq, r, v => some (pyEq r v)
  | .lt, r, v =>
    match pyInt r, pyInt v with
    | some a, some b => some (decide (a < b))
    | _, _ => none
  | .lte, r, v =>
    match pyInt r, pyInt v with
    | some a, some b => some (decide (a ≤ b))
    | _, _ => none
  | .contains, r, v => pyIn v r

/-- Resolution of the right-hand side of the rule inside `validate`: a
compiled expression is searched against the same data, otherwise the
attribute itself is the value. -/
def resolveRhs : Rhs → Value → Value
  | .expr p, data => jmesSearch p data
  | .literal v, _ => v

/-- The state change `self.add_validation_error(self.error)` performs on a
rule instance. -/
def withError (self : JmesPathModelValidation) : JmesPathModelValidation :=
  { self with toBaseValidation := add_validation_error self.toBaseValidation self.error }

/-- `JmesPathModelValidation.validate` (`schemas/validator.py` lines
40-60): extract `lhs`; if it is truthy, resolve `rhs` and apply the
operator, recording `self.error` on comparison failure; `strict` is
unused.  `none` models an exception escaping from the operator lambda. -/
def JmesPathModelValidation.validate (self : JmesPathModelValidation)
    (data : Value) (strict : Bool) : Option JmesPathModelValidation :=
  let lhs := jmesSearch self.left data
  if truthy lhs then
    let rhs := resolveRhs self.right data
    match operators self.operator lhs rhs with
    | none => none
    | some valid => if valid then some self else some (withError self)
  else
    some self

/-- Repeated `validate` calls on successive data documents with no
intervening `clear_results` (the accumulation scenario). -/
def validateSeq (self : JmesPathModelValidation) (strict : Bool) :
    List Value → Option JmesPathModelValidation
  | [] => some self
  | d :: ds =>
    match self.validate d strict with
    | none => none
    | some s2 => validateSeq s2 strict ds

/-- A validator plugin class as `load_validators` sees it: whether the
class declares an `id` attribute (`hasattr(cls, "id")`), and its class
attributes (the plugin kind of this repository is a `JmesPathModelValidation`
subclass).  Classes occurring in several modules are modelled per
occurrence. -/
structure PluginClass where
  declaredId : Option String
  left : List String
  right : Rhs
  operator : Operator
  error : String
deriving Repr

/-- A plugin module as `inspect.getmembers(module, is_validator)` presents
it: the member (name, class) pairs, in the order `getmembers` yields them
(alphabetical by name). -/
def PluginModule : Type := List (String × PluginClass)

/-- The effective id of a member: the declared `id` attribute, or — after
`cls.id = name` — the member name when the attribute is absent. -/
def effId (m : String × PluginClass) : String :=
  match m.2.declaredId with
  | some i => i
  | none => m.1

/-- `cls()`: instantiate a plugin class; `BaseValidation.__init__` starts
it with an empty `_results` list, `id` being the (effective) class
attribute. -/
def instantiate (i : String) (cls : PluginClass) : JmesPathModelValidation :=
  { id := i, results := [],
    left := cls.left, right := cls.right, operator := cls.operator, error := cls.error }

/-- What `load_validators` has built so far: the insertion-ordered
`validators` dict and the lines printed for duplicates. -/
structure LoadResult where
  validators : List (String × JmesPathModelValidation)
  log : List String
deriving Repr

/-- One iteration of the inner `getmembers` loop of `load_validators`:
a duplicate id is only logged, otherwise the class is instantiated and
registered under its id. -/
def loadMember (acc : LoadResult) (m : String × PluginClass) : LoadResult :=
  let i := effId m
  if (alook acc.validators i).isSome then
    { acc with log := acc.log ++ ["Duplicate validator name: " ++ i] }
  else
    { acc with validators := acc.validators ++ [(i, instantiate i m.2)] }

/-- The inner loop of `load_validators` over the members of one module. -/
def loadModule (acc : LoadResult) (mod : PluginModule) : LoadResult :=
  mod.foldl loadMember acc

/-- The outer `iter_modules` loop: importing a module
(`find_module(...).load_module(...)`) may raise, which is not caught and
propagates out of `load_validators`. -/
def loadAll (acc : LoadResult) : List (Except String PluginModule) → Except String LoadResult
  | [] => .ok acc
  | .error e :: _ => .error e
  | .ok mod :: rest => loadAll (loadModule acc mod) rest

/-- `load_validators` (`schemas/validator.py` lines 71-84) over the
modules `pkgutil.iter_modules` discovers; a broken module is an
`Except.error`. -/
def load_validators (mods : List (Except String PluginModule)) : Except String LoadResult :=
  loadAll { validators := [], log := [] } mods

/-- The first member of a list whose effective id is `i` (specification
side, for the first-wins property). -/
def firstWith (i : String) : List (String × PluginClass) → Option (String × PluginClass)
  | [] => none
  | m :: rest => if effId m = i then some m else firstWith i rest

/-- Modelled from the spec: an instance file as the `validate` command
consumes it — `InstanceFileManager` and `instance.validate(smgr, strict)`
live outside `src/`, so the instance is modelled by its name/path and the
result stream its `validate` yields (spec §4.2). -/
structure InstanceFile where
  filename : String
  path : String
  stream : List ValidationResult

/-- `cli.py` lines 80-82: the `validate` command sets the instance context
fields on each result it consumes. -/
def decorateFile (inst : InstanceFile) (r : ValidationResult) : ValidationResult :=
  { r with instance_type := some "FILE",
           instance_name := some inst.filename,
           instance_location := some inst.path }

/-- The result loop of the `validate` command (`cli.py` lines 76-90) for
one instance: decorate each result, print failures (and passes when
`--show-pass`), and raise `error_exists` on any failure.  State:
(printed results, `error_exists`). -/
def validateStep (show_pass : Bool) (st : List ValidationResult × Bool)
    (inst : InstanceFile) : List ValidationResult × Bool :=
  inst.stream.foldl
    (fun st r =>
      let r := decorateFile inst r
      if !r.passed then (st.1 ++ [r], true)
      else if r.passed && show_pass then (st.1 ++ [r], st.2)
      else st)
    st

/-- The whole accumulation of the `validate` command (`cli.py` lines 76-94):
`error_exists` starts `False` once, before the instance loop; the command
exits non-zero exactly when the final `error_exists` is `True`. -/
def validateCommand (show_pass : Bool) (instances : List InstanceFile) :
    List ValidationResult × Bool :=
  instances.foldl (validateStep show_pass) ([], false)

/-- Modelled from the spec: a compiled schema object from `SchemaManager`
(`schemas/manager.py`, not under `src/`), reduced to the
`schema_obj.validate(data)` operation the `ansible` command calls, which
yields a list of results (spec §2, §4.1). -/
structure SchemaObject where
  validate : Value → List ValidationResult

/-- One host of the inventory as the `ansible` command sees it: its name,
its cleaned host variables (`get_clean_host_vars`, with the reserved
`jsonschema_mapping` key already split off as the mapping it holds: var
key to schema-id list). -/
structure AnsibleHost where
  name : String
  hostvar : List (String × Value)
  mapping : Option (List (String × List String))

/-- The test `if mapping and key in mapping.keys()` (`cli.py` line 247):
the mapped id list is consulted only when the mapping exists, is truthy
(non-empty), and names the key. -/
def mappingEntry (mapping : Option (List (String × List String)))
    (key : String) : Option (List String) :=
  match mapping with
  | none => none
  | some m => if m.isEmpty then none else alook m key

/-- The dict comprehension `{schema_id: smgr.schemas[schema_id] for
schema_id in mapping[key]}` (`cli.py` line 248); a schema id absent from
the manager raises `KeyError`. -/
def gatherSchemas (schemas : List (String × SchemaObject)) :
    List String → Except String (List (String × SchemaObject))
  | [] => .ok []
  | sid :: rest =>
    match alook schemas sid with
    | none => .error ("KeyError: " ++ sid)
    | some s => (gatherSchemas schemas rest).map (fun l => (sid, s) :: l)

/-- The `applicable_schemas` selection (`cli.py` lines 246-250): the
mapped schemas for a mapped key, all loaded schemas otherwise. -/
def applicableSchemas (schemas : List (String × SchemaObject))
    (mapping : Option (List (String × List String))) (key : String) :
    Except String (List (String × SchemaObject)) :=
  match mappingEntry mapping key with
  | some ids => gatherSchemas schemas ids
  | none => .ok schemas

/-- `cli.py` lines 255-257: the `ansible` command sets the instance
context fields on each result it consumes. -/
def decorateVar (key hostname : String) (r : ValidationResult) : ValidationResult :=
  { r with instance_type := some "VAR",
           instance_name := some key,
           instance_location := some hostname }

/-- One `(key, value)` iteration of the `ansible` command (`cli.py` lines
246-257): run every applicable schema on `{key: value}` and decorate the
results. -/
def keyResults (schemas : List (String × SchemaObject))
    (mapping : Option (List (String × List String)))
    (hostname key : String) (value : Value) :
    Except String (List ValidationResult) :=
  (applicableSchemas schemas mapping key).map fun appl =>
    appl.foldl
      (fun acc p => acc ++ (p.2.validate (.vDict [(key, value)])).map (decorateVar key hostname))
      []

/-- All results produced for one host, in key order. -/
def hostResults (schemas : List (String × SchemaObject)) (host : AnsibleHost) :
    Except String (List ValidationResult) :=
  host.hostvar.foldl
    (fun acc kv => do
      let done ← acc
      let rs ← keyResults schemas host.mapping host.name kv.1 kv.2
      .ok (done ++ rs))
    (.ok [])

/-- `if limit and host.name != limit: continue` (`cli.py` line 230); an
empty limit string is falsy. -/
def limitSkip (limit : Option String) (name : String) : Bool :=
  match limit with
  | none => false
  | some l => !l.isEmpty && name != l

/-- The host loop of the `ansible` command (`cli.py` lines 229-264).
State: (printed results, `error_exists`).  Faithful to the source,
`error_exists` is reset to `False` at the start of every processed host
(`cli.py` line 245), so after the loop it only reflects the last
processed host. -/
def ansibleGo (schemas : List (String × SchemaObject)) (limit : Option String)
    (show_pass : Bool) (st : List ValidationResult × Bool) :
    List AnsibleHost → Except String (List ValidationResult × Bool)
  | [] => .ok st
  | host :: rest =>
    if limitSkip limit host.name then
      ansibleGo schemas limit show_pass st rest
    else
      match hostResults schemas host with
      | .error e => .error e
      | .ok rs =>
        ansibleGo schemas limit show_pass
          (st.1 ++ rs.filter (fun r => !r.passed || show_pass),
           rs.any fun r => !r.passed)
          rest

/-- The `ansible` command (`cli.py` lines 227-269): the run exits
non-zero exactly when the final `error_exists` is `True`. -/
def ansibleCommand (schemas : List (String × SchemaObject)) (limit : Option String)
    (show_pass : Bool) (hosts : List AnsibleHost) :
    Except String (List ValidationResult × Bool) :=
  ansibleGo schemas limit show_pass ([], false) hosts

/-! ### Demonstration inputs -/

/-- The spec §8 example rule: `bgp.asn` must be `gte` the literal 64512. -/
def demoRule : JmesPathModelValidation :=
  { id := "schemas/bgp", results := [],
    left := ["bgp", "asn"], right := .literal (.vInt 64512),
    operator := .gte, error := "ASN must be at least 64512" }

/-- The spec §8 failing document `{"bgp": {"asn": 100}}`. -/
def demoData : Value :=
  .vDict [("bgp", .vDict [("asn", .vInt 100)])]

/-- The state the demonstration rule reaches after validating the spec §8
failing document twice in succession. -/
def demoRuleTwice : JmesPathModelValidation :=
  { demoRule with toBaseValidation :=
      { id := "schemas/bgp",
        results :=
          [{ result := "FAIL", schema_id := "schemas/bgp",
             message := some "ASN must be at least 64512" },
           { result := "FAIL", schema_id := "schemas/bgp",
             message := some "ASN must be at least 64512" }] } }

/-- A plugin class declaring id "A". -/
def demoClsA : PluginClass :=
  { declaredId := some "A", left := ["x"], right := .literal (.vInt 1),
    operator := .eq, error := "a" }

/-- A plugin class declaring id "C". -/
def demoClsC : PluginClass :=
  { declaredId := some "C", left := ["y"], right := .literal (.vInt 2),
    operator := .eq, error := "c" }

/-- A plugin module exposing the class with id "A". -/
def demoModA : PluginModule := [("CheckA", demoClsA)]

/-- A plugin module exposing the class with id "C". -/
def demoModC : PluginModule := [("CheckC", demoClsC)]

/-- A second plugin class also declaring id "A" (a duplicate). -/
def demoClsADup : PluginClass :=
  { declaredId := some "A", left := ["z"], right := .literal (.vInt 9),
    operator := .eq, error := "dup" }

/-- A plugin module whose class duplicates the id "A". -/
def demoModADup : PluginModule := [("CheckB", demoClsADup)]

/-- A schema object that fails everything handed to it. -/
def demoFailSchema : SchemaObject :=
  ⟨fun _ => [{ result := "FAIL", schema_id := "schemas/bad",
               message := some "12 is not of type string" }]⟩

/-- A schema object that passes everything handed to it. -/
def demoPassSchema : SchemaObject :=
  ⟨fun _ => [{ result := "PASS", schema_id := "schemas/good" }]⟩

/-- A schema manager index holding the two demonstration schemas. -/
def demoSchemas : List (String × SchemaObject) :=
  [("schemas/bad", demoFailSchema), ("schemas/good", demoPassSchema)]

/-- A host whose only variable is mapped (via `jsonschema_mapping`) to the
failing schema. -/
def demoHost1 : AnsibleHost :=
  { name := "leaf1", hostvar := [("dns", .vInt 12)],
    mapping := some [("dns", ["schemas/bad"])] }

/-- A host whose only variable is mapped to the passing schema. -/
def demoHost2 : AnsibleHost :=
  { name := "leaf2", hostvar := [("dns", .vStr "ok")],
    mapping := some [("dns", ["schemas/good"])] }

/-! ### Helper lemmas about the expression-rule validator -/

theorem withError_results (self : JmesPathModelValidation) :
    (withError self).results =
      self.results ++ [{ result := "FAIL", schema_id := self.id, message := some self.error }] := rfl

theorem withError_id (self : JmesPathModelValidation) :
    (withError self).id = self.id := rfl

/-- A successful `validate` call leaves the instance unchanged or appends
the single configured error. -/
theorem validate_eq_self_or_error (self : JmesPathModelValidation) (data : Value)
    (strict : Bool) (s2 : JmesPathModelValidation)
    (h : self.validate data strict = some s2) :
    s2 = self ∨ s2 = withError self := by
  unfold JmesPathModelValidation.validate at h
  by_cases ht : truthy (jmesSearch self.left data)
  · simp only [ht, if_true] at h
    rcases hop : operators self.operator (jmesSearch self.left data)
        (resolveRhs self.right data) with _ | valid
    · rw [hop] at h; exact absurd h (by simp)
    · rw [hop] at h
      by_cases hv : valid = true
      · subst hv; simp only [if_true, Option.some.injEq] at h
        exact Or.inl h.symm
      · rw [Bool.not_eq_true] at hv; subst hv
        simp only [Bool.false_eq_true, if_false, Option.some.injEq] at h
        exact Or.inr h.symm
  · simp [ht] at h
    exact Or.inl h.symm

/-- A sequence of successful `validate` calls only ever appends to the
result list. -/
theorem validateSeq_append (strict : Bool) (docs : List Value) :
    ∀ (self s2 : JmesPathModelValidation),
      validateSeq self strict docs = some s2 →
      ∃ t, s2.results = self.results ++ t := by
  induction docs with
  | nil =>
    intro self s2 h
    simp only [validateSeq, Option.some.injEq] at h
    exact ⟨[], by simp [← h]⟩
  | cons d ds ih =>
    intro self s2 h
    simp only [validateSeq] at h
    rcases hv : self.validate d strict with _ | s1
    · rw [hv] at h; exact absurd h (by simp)
    · rw [hv] at h
      obtain ⟨t1, ht1⟩ := ih s1 s2 h
      rcases validate_eq_self_or_error self d strict s1 hv with rfl | rfl
      · exact ⟨t1, ht1⟩
      · exact ⟨_, by rw [ht1, withError_results self, List.append_assoc]⟩

/-! ### Claims C5, C6, C7, C9, C10 -/

/-- C5: for every instance data document and every expression rule, if
the left-hand extraction of the rule yields a falsy/absent value,
`JmesPathModelValidation.validate` records no failure and the result is
independent of the right-hand side and operator of the rule (they are never
consulted). -/
theorem validate_lhs_falsy_vacuous (self : JmesPathModelValidation) (data : Value)
    (strict : Bool) (h : truthy (jmesSearch self.left data) = false) :
    ∀ (r : Rhs) (op : Operator),
      JmesPathModelValidation.validate
          { self with right := r, operator := op } data strict =
        some { self with right := r, operator := op } := by
  intro r op
  unfold JmesPathModelValidation.validate
  simp [h]

/-- Witness for C5: a rule whose left path is absent from the document is
vacuously satisfied whatever its right-hand side and operator are. -/
theorem validate_lhs_falsy_vacuous_witness :
    JmesPathModelValidation.validate
        { demoRule with right := Rhs.literal (Value.vInt 64512),
                        operator := Operator.gte }
        (Value.vDict []) false =
      some { demoRule with right := Rhs.literal (Value.vInt 64512),
                           operator := Operator.gte } :=
  validate_lhs_falsy_vacuous demoRule (Value.vDict []) false rfl
    (Rhs.literal (Value.vInt 64512)) Operator.gte

/-- C6: for a truthy left-hand value, `validate` resolves the right-hand
side (literal, or its own extraction against the same data) and applies
the operator: `gt`/`gte`/`lt`/`lte` coerce both sides to integers, `eq`
compares as extracted, `contains` checks right-hand membership in the
left-hand value; on comparison failure exactly the configured error
message is recorded as a FAIL under the owning schema id of the rule. -/
theorem validate_operator_semantics (self : JmesPathModelValidation) (data : Value)
    (strict : Bool) (htruthy : truthy (jmesSearch self.left data) = true) :
    (∀ a b : Int, pyInt (jmesSearch self.left data) = some a →
        pyInt (resolveRhs self.right data) = some b →
        (self.operator = .gt →
          self.validate data strict = some (if a > b then self else withError self)) ∧
        (self.operator = .gte →
          self.validate data strict = some (if a ≥ b then self else withError self)) ∧
        (self.operator = .lt →
          self.validate data strict = some (if a < b then self else withError self)) ∧
        (self.operator = .lte →
          self.validate data strict = some (if a ≤ b then self else withError self))) ∧
    (self.operator = .eq →
      self.validate data strict =
        some (if pyEq (jmesSearch self.left data) (resolveRhs self.right data)
              then self else withError self)) ∧
    (∀ m : Bool, self.operator = .contains →
        pyIn (resolveRhs self.right data) (jmesSearch self.left data) = some m →
        self.validate data strict = some (if m then self else withError self)) ∧
    (withError self).results =
      self.results ++ [{ result := "FAIL", schema_id := self.id, message := some self.error }] := by
  refine ⟨?_, ?_, ?_, withError_results self⟩
  · intro a b ha hb
    refine ⟨?_, ?_, ?_, ?_⟩ <;>
      · intro hop
        unfold JmesPathModelValidation.validate
        simp only [htruthy, if_true, hop, operators, ha, hb]
        by_cases hcmp : a > b ∨ a ≥ b ∨ a < b ∨ a ≤ b
        all_goals split <;> split <;> simp_all
  · intro hop
    unfold JmesPathModelValidation.validate
    simp only [htruthy, if_true, hop, operators]
    split <;> rfl
  · intro m hop hm
    unfold JmesPathModelValidation.validate
    simp only [htruthy, if_true, hop, operators, hm]
    split <;> rfl

/-- Witness for C6: the spec §8 example — `bgp.asn gte 64512` on
`{"bgp": {"asn": 100}}` records the configured error of the rule. -/
theorem validate_operator_semantics_witness :
    demoRule.validate demoData false = some (withError demoRule) := by
  have h := ((validate_operator_semantics demoRule demoData false rfl).1
    100 64512 rfl rfl).2.1 rfl
  rw [h, if_neg (by decide)]

/-- C7: a validator whose run recorded zero violations returns from
`get_results` exactly one PASS result carrying its owning schema id,
never an empty list. -/
theorem get_results_singleton_pass (s : BaseValidation) (h : s.results = []) :
    (get_results s).1 = [{ result := "PASS", schema_id := s.id }] := by
  simp [get_results, h]

/-- Witness for C7. -/
theorem get_results_singleton_pass_witness :
    (get_results { id := "schemas/dns_servers", results := [] }).1 =
      [{ result := "PASS", schema_id := "schemas/dns_servers" }] :=
  get_results_singleton_pass { id := "schemas/dns_servers", results := [] } rfl

/-- C9: `JmesPathModelValidation.validate` ignores its `strict`
parameter: the outcome for any data document is identical under
`strict=true` and `strict=false`. -/
theorem validate_ignores_strict (self : JmesPathModelValidation) (data : Value)
    (s1 s2 : Bool) :
    self.validate data s1 = self.validate data s2 := rfl

/-- C10: validator result state is append-only: a successful `validate`
only appends to `_results` (changing nothing else of the instance),
`get_results` only appends (and returns the stored list), successive
`validate` calls without an intervening `clear_results` accumulate, and
`clear_results` empties the list. -/
theorem results_append_only (self s2 : JmesPathModelValidation) (b : BaseValidation)
    (data : Value) (docs : List Value) (strict : Bool) :
    (self.validate data strict = some s2 →
        s2.id = self.id ∧ s2.left = self.left ∧ s2.operator = self.operator ∧
        ∃ t, s2.results = self.results ++ t) ∧
    (∃ t, (get_results b).2.results = b.results ++ t ∧
        (get_results b).1 = (get_results b).2.results) ∧
    (clear_results b).results = [] ∧
    (validateSeq self strict docs = some s2 →
        ∃ t, s2.results = self.results ++ t) := by
  refine ⟨?_, ?_, rfl, validateSeq_append strict docs self s2⟩
  · intro h
    rcases validate_eq_self_or_error self data strict s2 h with rfl | rfl
    · exact ⟨rfl, rfl, rfl, [], by simp⟩
    · exact ⟨rfl, rfl, rfl, _, withError_results self⟩
  · by_cases hb : b.results.isEmpty
    · exact ⟨[{ result := "PASS", schema_id := b.id }], by simp [get_results, hb]⟩
    · exact ⟨[], by simp [get_results, hb]⟩

/-- Witness for C10: two `validate` calls on the failing document
accumulate both recorded failures. -/
theorem results_append_only_witness :
    ∃ t, demoRuleTwice.results = demoRule.results ++ t :=
  (results_append_only demoRule demoRuleTwice demoRule.toBaseValidation
    demoData [demoData, demoData] false).2.2.2 (by rfl)

/-! ### Helper lemmas about association-list lookup -/

theorem alook_append_some {α : Type} (l2 : List (String × α)) :
    ∀ (l : List (String × α)) (i : String) (w : α),
      alook l i = some w → alook (l ++ l2) i = some w := by
  intro l
  induction l with
  | nil => intro i w h; simp [alook] at h
  | cons p rest ih =>
    intro i w h
    cases p with
    | mk k v =>
      simp only [alook, List.cons_append] at h ⊢
      by_cases hk : k = i
      · simpa [hk] using h
      · rw [if_neg hk] at h ⊢
        exact ih i w h

theorem alook_append_none {α : Type} (l2 : List (String × α)) :
    ∀ (l : List (String × α)) (i : String),
      alook l i = none → alook (l ++ l2) i = alook l2 i := by
  intro l
  induction l with
  | nil => intro i _; rfl
  | cons p rest ih =>
    intro i h
    cases p with
    | mk k v =>
      simp only [alook, List.cons_append] at h ⊢
      by_cases hk : k = i
      · rw [if_pos hk] at h; exact absurd h (by simp)
      · rw [if_neg hk] at h ⊢
        exact ih i h

theorem alook_none_iff {α : Type} :
    ∀ (l : List (String × α)) (i : String),
      alook l i = none ↔ i ∉ l.map Prod.fst := by
  intro l
  induction l with
  | nil => intro i; simp [alook]
  | cons p rest ih =>
    intro i
    cases p with
    | mk k v =>
      by_cases hk : k = i
      · subst hk; simp [alook]
      · simp only [alook, if_neg hk, List.map_cons, List.mem_cons]
        rw [ih]
        constructor
        · intro hn hor
          rcases hor with he | hm
          · exact hk he.symm
          · exact hn hm
        · intro hni hm
          exact hni (Or.inr hm)

/-! ### Invariants of the plugin-registration loop -/

/-- A plugin registered under an id stays registered under that id. -/
theorem foldl_loadMember_keeps (ms : List (String × PluginClass)) :
    ∀ (acc : LoadResult) (i : String) (w : JmesPathModelValidation),
      alook acc.validators i = some w →
      alook ((ms.foldl loadMember acc).validators) i = some w := by
  induction ms with
  | nil => intro acc i w h; exact h
  | cons m rest ih =>
    intro acc i w h
    simp only [List.foldl_cons]
    apply ih
    cases hd : alook acc.validators (effId m) with
    | some v => simpa [loadMember, hd] using h
    | none =>
      simp only [loadMember, hd, Option.isSome_none, Bool.false_eq_true, if_false]
      exact alook_append_some _ _ i w h

/-- The first class carrying each id is the one that gets registered
(and instantiated) for it. -/
theorem foldl_loadMember_lookup (ms : List (String × PluginClass)) :
    ∀ (acc : LoadResult) (i : String),
      alook acc.validators i = none →
      alook ((ms.foldl loadMember acc).validators) i =
        (firstWith i ms).map fun m => instantiate i m.2 := by
  induction ms with
  | nil => intro acc i h; simpa [firstWith] using h
  | cons m rest ih =>
    intro acc i h
    simp only [List.foldl_cons, firstWith]
    cases hd : alook acc.validators (effId m) with
    | some v =>
      have hne : ¬ effId m = i := by
        intro he; rw [he, h] at hd; exact absurd hd (by simp)
      rw [if_neg hne]
      have hsame : (loadMember acc m).validators = acc.validators := by
        simp [loadMember, hd]
      rw [ih (loadMember acc m) i (by rw [hsame]; exact h)]
    | none =>
      by_cases hi : effId m = i
      · rw [if_pos hi]
        have hv : alook (loadMember acc m).validators i =
            some (instantiate (effId m) m.2) := by
          simp only [loadMember, hd, Option.isSome_none, Bool.false_eq_true, if_false]
          rw [alook_append_none _ _ i (by rw [← hi]; exact hd)]
          simp [alook, hi]
        rw [foldl_loadMember_keeps rest (loadMember acc m) i _ hv, hi]
        rfl
      · rw [if_neg hi]
        apply ih
        cases hd2 : alook (loadMember acc m).validators i with
        | none => rfl
        | some w =>
          exfalso
          simp only [loadMember, hd, Option.isSome_none, Bool.false_eq_true, if_false] at hd2
          rw [alook_append_none _ _ i h] at hd2
          simp [alook, hi] at hd2

/-- Registration never duplicates an id. -/
theorem foldl_loadMember_nodup (ms : List (String × PluginClass)) :
    ∀ acc : LoadResult, (acc.validators.map Prod.fst).Nodup →
      ((ms.foldl loadMember acc).validators.map Prod.fst).Nodup := by
  induction ms with
  | nil => intro acc h; exact h
  | cons m rest ih =>
    intro acc h
    simp only [List.foldl_cons]
    apply ih
    cases hd : alook acc.validators (effId m) with
    | some v => simpa [loadMember, hd] using h
    | none =>
      simp only [loadMember, hd, Option.isSome_none, Bool.false_eq_true, if_false,
        List.map_append, List.map_cons, List.map_nil]
      rw [List.nodup_append]
      exact ⟨h, List.nodup_singleton _,
        List.disjoint_singleton.mpr ((alook_none_iff _ _).mp hd)⟩

/-- Every processed member is either registered or logged as a
duplicate. -/
theorem foldl_loadMember_length (ms : List (String × PluginClass)) :
    ∀ acc : LoadResult,
      (ms.foldl loadMember acc).log.length +
          (ms.foldl loadMember acc).validators.length =
        acc.log.length + acc.validators.length + ms.length := by
  induction ms with
  | nil => intro acc; simp
  | cons m rest ih =>
    intro acc
    simp only [List.foldl_cons, List.length_cons]
    rw [ih]
    cases hd : alook acc.validators (effId m) <;> simp [loadMember, hd] <;> omega

/-- Loading never runs `validate` on anything: every registered instance
still carries the empty `_results` list its constructor gave it. -/
theorem foldl_loadMember_fresh (ms : List (String × PluginClass)) :
    ∀ acc : LoadResult, (∀ p ∈ acc.validators, p.2.results = []) →
      ∀ p ∈ (ms.foldl loadMember acc).validators, p.2.results = [] := by
  induction ms with
  | nil => intro acc h; exact h
  | cons m rest ih =>
    intro acc h
    simp only [List.foldl_cons]
    apply ih
    intro p hp
    cases hd : alook acc.validators (effId m) with
    | some v =>
      have hsame : (loadMember acc m).validators = acc.validators := by
        simp [loadMember, hd]
      rw [hsame] at hp
      exact h p hp
    | none =>
      simp only [loadMember, hd, Option.isSome_none, Bool.false_eq_true, if_false,
        List.mem_append, List.mem_singleton] at hp
      rcases hp with hp | hp
      · exact h p hp
      · rw [hp]; rfl

/-- `load_validators` on an error-free module list is the member-by-member
fold over the concatenated member lists. -/
theorem loadAll_ok (mods : List PluginModule) :
    ∀ acc : LoadResult,
      loadAll acc (mods.map Except.ok) =
        Except.ok (mods.flatten.foldl loadMember acc) := by
  induction mods with
  | nil => intro acc; rfl
  | cons m rest ih =>
    intro acc
    simp only [List.map_cons, loadAll]
    rw [List.flatten_cons, List.foldl_append]
    exact ih (loadModule acc m)

/-! ### Claim C1 -/

/-- C1: registering several plugins with the same id leaves exactly one
active plugin — the first registered — in the registry: the lookup of any
id yields the instantiation of the first member carrying that id,
registry ids are unique, every member not registered accounts for exactly
one logged duplicate line, and no registered instance has had its
`validate` run during loading (all `_results` lists are still empty; a
rejected class is never even instantiated, so its `validate` cannot have
been invoked). -/
theorem load_validators_first_wins (mods : List PluginModule) :
    ∃ r, load_validators (mods.map Except.ok) = Except.ok r ∧
      (∀ i, alook r.validators i =
          (firstWith i mods.flatten).map fun m => instantiate i m.2) ∧
      (r.validators.map Prod.fst).Nodup ∧
      r.log.length + r.validators.length = mods.flatten.length ∧
      (∀ p ∈ r.validators, p.2.results = []) := by
  refine ⟨mods.flatten.foldl loadMember { validators := [], log := [] },
    loadAll_ok mods _, ?_, ?_, ?_, ?_⟩
  · intro i
    exact foldl_loadMember_lookup mods.flatten _ i rfl
  · exact foldl_loadMember_nodup mods.flatten _ (by simp)
  · simpa using foldl_loadMember_length mods.flatten { validators := [], log := [] }
  · exact foldl_loadMember_fresh mods.flatten _ (by simp)

/-- Witness for C1: with a second module duplicating id "A", the lookup of
"A" in the loaded registry is the instantiation of the first class. -/
theorem load_validators_first_wins_witness :
    ∃ r, load_validators ([demoModA, demoModADup].map Except.ok) = Except.ok r ∧
      alook r.validators "A" = some (instantiate "A" demoClsA) := by
  obtain ⟨r, h1, h2, _, _, _⟩ := load_validators_first_wins [demoModA, demoModADup]
  exact ⟨r, h1, (h2 "A").trans rfl⟩

/-! ### Claim C2 -/

theorem loadAll_error (e : String) (rest : List (Except String PluginModule)) :
    ∀ (pre : List PluginModule) (acc : LoadResult),
      loadAll acc (pre.map Except.ok ++ Except.error e :: rest) =
        Except.error e := by
  intro pre
  induction pre with
  | nil => intro acc; rfl
  | cons m p ih =>
    intro acc
    simp only [List.map_cons, List.cons_append, loadAll]
    exact ih (loadModule acc m)

/-- Counterexample to C2: with a broken module between two good ones,
`load_validators` propagates the import failure and registers nothing —
in particular the validator of the module after the broken one, which
loads fine when the broken module is absent, is not loaded. -/
theorem load_validators_not_isolated :
    load_validators
        [Except.ok demoModA, Except.error "ImportError: broken plugin",
         Except.ok demoModC] =
      Except.error "ImportError: broken plugin" ∧
    ∃ r, load_validators [Except.ok demoModA, Except.ok demoModC] = Except.ok r ∧
      (alook r.validators "C").isSome = true :=
  ⟨rfl, _, rfl, rfl⟩

/-- C2 (amended): a broken or malformed plugin module aborts discovery —
the failure propagates out of `load_validators` and none of the
remaining modules are loaded. -/
theorem load_validators_broken_module_aborts (pre : List PluginModule) (e : String)
    (rest : List (Except String PluginModule)) :
    load_validators (pre.map Except.ok ++ Except.error e :: rest) =
      Except.error e :=
  loadAll_error e rest pre _

/-! ### Claim C3 -/

theorem decorateFile_passed (inst : InstanceFile) (r : ValidationResult) :
    (decorateFile inst r).passed = r.passed := rfl

/-- The per-instance result loop of the `validate` command raises
`error_exists` exactly when the incoming flag was raised or some result
of this instance failed. -/
theorem validateStep_snd (show_pass : Bool) (inst : InstanceFile) :
    ∀ st : List ValidationResult × Bool,
      (validateStep show_pass st inst).2 =
        (st.2 || inst.stream.any fun r => !r.passed) := by
  unfold validateStep
  generalize inst.stream = l
  induction l with
  | nil => intro st; simp
  | cons r rest ih =>
    intro st
    simp only [List.foldl_cons, List.any_cons]
    by_cases hp : r.passed
    · rw [ih]
      by_cases hs : show_pass = true <;>
        simp [decorateFile_passed, hp, hs]
    · have hp2 : r.passed = false := by simpa using hp
      rw [ih]
      simp [decorateFile_passed, hp2]

/-- The `validate` command does satisfy the aggregation property: the run
fails exactly when some result of some instance file fails. -/
theorem validateCommand_fails_iff (show_pass : Bool) (instances : List InstanceFile) :
    (validateCommand show_pass instances).2 =
      instances.any fun inst => inst.stream.any fun r => !r.passed := by
  unfold validateCommand
  suffices h : ∀ (l : List InstanceFile) (st : List ValidationResult × Bool),
      (l.foldl (validateStep show_pass) st).2 =
        (st.2 || l.any fun inst => inst.stream.any fun r => !r.passed) by
    simpa using h instances ([], false)
  intro l
  induction l with
  | nil => intro st; simp
  | cons inst rest ih =>
    intro st
    simp only [List.foldl_cons, List.any_cons]
    rw [ih, validateStep_snd show_pass inst st, Bool.or_assoc]

/-- C3 (code bug, `ansible` command): because `error_exists` is reset to
`False` at the top of every processed host (`cli.py` line 245), a run
over a failing first host and a passing second host prints the first
FAIL result of the first host yet finishes with `error_exists = False` — it prints
the ALL-PASSED banner and exits 0, so the overall status is not the AND
of all produced results. -/
theorem ansible_last_host_overwrites_failure :
    ansibleCommand demoSchemas none false [demoHost1, demoHost2] =
      Except.ok ([{ result := "FAIL", schema_id := "schemas/bad",
                    message := some "12 is not of type string",
                    instance_type := some "VAR", instance_name := some "dns",
                    instance_location := some "leaf1" }], false) ∧
    ValidationResult.passed
        { result := "FAIL", schema_id := "schemas/bad",
          message := some "12 is not of type string",
          instance_type := some "VAR", instance_name := some "dns",
          instance_location := some "leaf1" } = false :=
  ⟨rfl, rfl⟩

/-! ### Claim C4 -/

/-- Counterexample to C4: results are not immutable once produced — the
`validate` command (`cli.py` lines 80-82) overwrites the instance-identity
field of the PASS result that `get_results` emitted. -/
theorem validationResult_mutated_by_cli :
    ∃ r ∈ (get_results { id := "schemas/dns_servers", results := [] }).1,
      (decorateFile { filename := "dns.yml", path := "./dns.yml", stream := [] }
          r).instance_name ≠ r.instance_name := by
  refine ⟨{ result := "PASS", schema_id := "schemas/dns_servers" }, ?_, ?_⟩
  · simp [get_results]
  · simp [decorateFile]

/-- C4 (amended): after a result is produced, its outcome, schema id and
message — and hence its pass/fail status — are never modified; the CLI
does, however, set the `instance_type`, `instance_name` and
`instance_location` context fields of the result when it consumes it
(`cli.py` lines 80-82 and 255-257). -/
theorem decorate_only_sets_context (inst : InstanceFile) (key hostname : String)
    (r : ValidationResult) :
    (decorateFile inst r).result = r.result ∧
    (decorateFile inst r).schema_id = r.schema_id ∧
    (decorateFile inst r).message = r.message ∧
    (decorateFile inst r).passed = r.passed ∧
    (decorateFile inst r).instance_type = some "FILE" ∧
    (decorateFile inst r).instance_name = some inst.filename ∧
    (decorateFile inst r).instance_location = some inst.path ∧
    (decorateVar key hostname r).result = r.result ∧
    (decorateVar key hostname r).schema_id = r.schema_id ∧
    (decorateVar key hostname r).message = r.message ∧
    (decorateVar key hostname r).passed = r.passed ∧
    (decorateVar key hostname r).instance_type = some "VAR" ∧
    (decorateVar key hostname r).instance_name = some key ∧
    (decorateVar key hostname r).instance_location = some hostname :=
  ⟨rfl, rfl, rfl, rfl, rfl, rfl, rfl, rfl, rfl, rfl, rfl, rfl, rfl, rfl⟩

/-! ### Claim C8 -/

/-- The dict comprehension over `mapping[key]` succeeds when all named
schema ids are loaded, and yields precisely the named schemas. -/
theorem gatherSchemas_exact (schemas : List (String × SchemaObject)) :
    ∀ ids : List String, (∀ sid ∈ ids, (alook schemas sid).isSome) →
      ∃ l, gatherSchemas schemas ids = Except.ok l ∧
        l.map Prod.fst = ids ∧ ∀ p ∈ l, alook schemas p.1 = some p.2 := by
  intro ids
  induction ids with
  | nil => intro _; exact ⟨[], rfl, rfl, by simp⟩
  | cons sid rest ih =>
    intro hall
    have hs : (alook schemas sid).isSome := hall sid (by simp)
    cases hval : alook schemas sid with
    | none => rw [hval] at hs; exact absurd hs (by simp)
    | some s =>
      obtain ⟨l, hl, hmap, hmem⟩ := ih fun x hx => hall x (by simp [hx])
      refine ⟨(sid, s) :: l, ?_, ?_, ?_⟩
      · simp only [gatherSchemas, hval, hl, Except.map]
      · simp [hmap]
      · intro p hp
        rcases List.mem_cons.mp hp with hp | hp
        · rw [hp]; exact hval
        · exact hmem p hp

/-- C8: for a host variable key named by a non-empty `jsonschema_mapping`,
the key is validated against exactly the mapped schema ids and no others
(the mapping is authoritative); a key the mapping does not name — or any
key when no mapping is defined — is validated against all loaded schemas. -/
theorem mapping_authoritative (schemas : List (String × SchemaObject)) (key : String) :
    (∀ (m : List (String × List String)) (ids : List String),
        m ≠ [] → alook m key = some ids →
        (∀ sid ∈ ids, (alook schemas sid).isSome) →
        ∃ l, applicableSchemas schemas (some m) key = Except.ok l ∧
          l.map Prod.fst = ids ∧ ∀ p ∈ l, alook schemas p.1 = some p.2) ∧
    (∀ m : List (String × List String),
        alook m key = none →
        applicableSchemas schemas (some m) key = Except.ok schemas) ∧
    applicableSchemas schemas none key = Except.ok schemas := by
  refine ⟨?_, ?_, rfl⟩
  · intro m ids hm hkey hall
    have hme : mappingEntry (some m) key = some ids := by
      simp [mappingEntry, List.isEmpty_iff, hm, hkey]
    unfold applicableSchemas
    rw [hme]
    exact gatherSchemas_exact schemas ids hall
  · intro m hkey
    unfold applicableSchemas
    cases hme : mappingEntry (some m) key with
    | none => rfl
    | some ids =>
      exfalso
      simp only [mappingEntry] at hme
      by_cases he : m.isEmpty
      · rw [if_pos he] at hme; exact absurd hme (by simp)
      · rw [if_neg he, hkey] at hme; exact absurd hme (by simp)

/-- Witness for C8: the mapped key `dns` of the demonstration host resolves to
exactly the mapped schema, and an unmapped key to all loaded schemas. -/
theorem mapping_authoritative_witness :
    (∃ l, applicableSchemas demoSchemas (some [("dns", ["schemas/bad"])]) "dns" =
        Except.ok l ∧ l.map Prod.fst = ["schemas/bad"] ∧
        ∀ p ∈ l, alook demoSchemas p.1 = some p.2) ∧
    applicableSchemas demoSchemas (some [("dns", ["schemas/bad"])]) "ntp" =
      Except.ok demoSchemas :=
  ⟨(mapping_authoritative demoSchemas "dns").1 [("dns", ["schemas/bad"])]
      ["schemas/bad"] (by simp) rfl
      (by intro sid h; rw [List.mem_singleton] at h; subst h; rfl),
   (mapping_authoritative demoSchemas "ntp").2.1 [("dns", ["schemas/bad"])] rfl⟩

end SchemaEnforcer
